import Mathlib

/-!
Shallow embedding of the Fantasy-Basketball-Simulation-Model repository.

The repository ships the presentation layer (`pages/index.js` and its
variants) together with two API routes; the Monte Carlo engine behind
`/api/simulate` is not part of the checked-in sources, so the engine-side
definitions below are modelled from the specification and are marked as
such in their doc comments.  JavaScript numbers are modelled as rationals
(`ℚ`); tally counters coming out of the engine are natural numbers.
-/

namespace FantasySim

/-! ## Presentation layer, translated from `pages/index.js`

`WinProbabilityBar` (pages/index.js lines 144-165) receives the overall
win/loss counters and computes the two displayed percentages over
`you + opponent`, falling back to 50 when that denominator is 0.

`CategoryRow` (pages/index.js lines 167-194) receives one category tally
`{you, opponent, tie}` and computes the two displayed percentages over
`you + opponent + tie` (again 50 on a zero denominator), flags the row as
a swing category when the two percentages are within 15 points of each
other, and marks the "you" side as winning when its percentage is
strictly larger.
-/

/-- `const youPct = total > 0 ? (you / total) * 100 : 50;` with
`total = you + opponent`, from `WinProbabilityBar`. -/
def winBar_youPct (you opponent : ℕ) : ℚ :=
  let total : ℚ := (you : ℚ) + (opponent : ℚ)
  if total > 0 then (you : ℚ) / total * 100 else 50

/-- `const oppPct = total > 0 ? (opponent / total) * 100 : 50;` from
`WinProbabilityBar`. -/
def winBar_oppPct (you opponent : ℕ) : ℚ :=
  let total : ℚ := (you : ℚ) + (opponent : ℚ)
  if total > 0 then (opponent : ℚ) / total * 100 else 50

/-- `const youPct = total > 0 ? (data.you / total) * 100 : 50;` with
`total = data.you + data.opponent + data.tie`, from `CategoryRow`. -/
def categoryRow_youPct (you opponent tie : ℕ) : ℚ :=
  let total : ℚ := (you : ℚ) + (opponent : ℚ) + (tie : ℚ)
  if total > 0 then (you : ℚ) / total * 100 else 50

/-- `const oppPct = total > 0 ? (data.opponent / total) * 100 : 50;` from
`CategoryRow`. -/
def categoryRow_oppPct (you opponent tie : ℕ) : ℚ :=
  let total : ℚ := (you : ℚ) + (opponent : ℚ) + (tie : ℚ)
  if total > 0 then (opponent : ℚ) / total * 100 else 50

/-- `const isSwing = Math.abs(youPct - oppPct) <= 15;` from `CategoryRow`. -/
def categoryRow_isSwing (you opponent tie : ℕ) : Bool :=
  |categoryRow_youPct you opponent tie - categoryRow_oppPct you opponent tie| ≤ 15

/-! ## Simulation core

The repository's checked-in sources call `/api/simulate` but do not
contain that route, so the engine is reconstructed here from the
specification (sections 3-4: CategorySpec table, SimulationEngine,
CurrentTotalsAdjuster, MatchupComparator, ResultsSummarizer). -/

/-- Modelled from the spec: a category's comparison direction, higher
wins for `maximize`, lower wins for `minimize`. -/
inductive Direction where
  | maximize
  | minimize
deriving DecidableEq, Repr

/-- Modelled from the spec: one row of the CategorySpec table.  A
counting category has `ratio = none`; a ratio category names the two
counting categories it is recomputed from and never holds an
independently sampled value. -/
structure CategorySpec where
  name : String
  direction : Direction
  varianceCoefficient : ℚ
  ratio : Option (String × String) := none

/-- Modelled from the spec: one player's per-game production rates for
the counting categories, plus the remaining games this scoring period. -/
structure PlayerProjection where
  id : String
  meanRate : String → ℚ
  gamesRemaining : Int

/-- Modelled from the spec: one team's input — its roster of projections
and the counting-category totals already accrued this period. -/
structure TeamInput where
  players : List PlayerProjection
  currentTotals : String → ℚ

/-- Modelled from the spec: simulation configuration. -/
structure SimConfig where
  trialCount : Int
  specs : List CategorySpec
  closenessThreshold : ℚ := 15
  topOutcomeCount : ℕ := 5

/-- Modelled from the spec: the full simulation input. -/
structure SimInput where
  teamSelf : TeamInput
  teamOpponent : TeamInput
  config : SimConfig

/-- Modelled from the spec: the injectable random source.  It supplies
one standard-normal draw per (team, trial, player, game, category)
address, which makes the engine a pure function of its inputs plus this
source, per section 5. -/
def Rng : Type := ℕ → ℕ → ℕ → ℕ → String → ℚ

/-- The degenerate random source that always draws 0 (every sample then
equals its mean); used for concrete zero-variance scenarios. -/
def rngZero : Rng := fun _ _ _ _ _ => 0

/-- Modelled from the spec: one per-game draw — mean plus (mean ×
variance coefficient) times the standard-normal draw, with negative
draws clamped to 0 because counting stats are non-negative. -/
def sampleGame (c : CategorySpec) (mean z : ℚ) : ℚ :=
  max 0 (mean + mean * c.varianceCoefficient * z)

/-- Modelled from the spec: a team's simulated total for one counting
category in one trial — the sum over each player of `gamesRemaining`
per-game draws. -/
def simulatedValue (rng : Rng) (team trial : ℕ) (players : List PlayerProjection)
    (c : CategorySpec) : ℚ :=
  (players.enum.map fun pi =>
    ((List.range pi.2.gamesRemaining.toNat).map fun g =>
      sampleGame c (pi.2.meanRate c.name) (rng team trial pi.1 g c.name)).sum).sum

/-- Modelled from the spec: a derived ratio, short-circuited to 0 when
the denominator is 0 so no NaN/Infinity is ever emitted. -/
def ratioVal (num den : ℚ) : ℚ :=
  if den = 0 then 0 else num / den

/-- Look up the spec-table row with a given name. -/
def findSpec (specs : List CategorySpec) (name : String) : Option CategorySpec :=
  specs.find? fun c => c.name == name

/-- Modelled from the spec (CurrentTotalsAdjuster, counting case): the
adjusted counting value of one trial is simulated plus current. -/
def adjustedCountingValue (rng : Rng) (team trial : ℕ) (ti : TeamInput)
    (c : CategorySpec) : ℚ :=
  simulatedValue rng team trial ti.players c + ti.currentTotals c.name

/-- Modelled from the spec (CurrentTotalsAdjuster, ratio case): a ratio
category is recomputed from the adjusted numerator and denominator
counting categories, never obtained by adding ratio values. -/
def adjustedValue (specs : List CategorySpec) (rng : Rng) (team trial : ℕ)
    (ti : TeamInput) (c : CategorySpec) : ℚ :=
  match c.ratio with
  | none => adjustedCountingValue rng team trial ti c
  | some (n, d) =>
    match findSpec specs n, findSpec specs d with
    | some cn, some cd =>
        ratioVal (adjustedCountingValue rng team trial ti cn)
                 (adjustedCountingValue rng team trial ti cd)
    | _, _ => 0

/-- Modelled from the spec: the outcome of one category in one trial. -/
inductive CatOutcome where
  | selfWin
  | oppWin
  | tie
deriving DecidableEq, Repr

/-- Modelled from the spec (MatchupComparator): compare two adjusted
values under the category's declared direction; equal values are a tie,
never folded into either win bucket. -/
def compareCat (dir : Direction) (a b : ℚ) : CatOutcome :=
  if a = b then .tie
  else match dir with
    | .maximize => if a > b then .selfWin else .oppWin
    | .minimize => if a < b then .selfWin else .oppWin

/-- Modelled from the spec: the outcome of one category in one trial of
the full matchup (team 0 is self, team 1 is the opponent). -/
def trialOutcome (inp : SimInput) (rng : Rng) (trial : ℕ) (c : CategorySpec) :
    CatOutcome :=
  compareCat c.direction
    (adjustedValue inp.config.specs rng 0 trial inp.teamSelf c)
    (adjustedValue inp.config.specs rng 1 trial inp.teamOpponent c)

/-- Modelled from the spec: the per-category outcomes of one trial, in
spec-table order. -/
def trialOutcomes (inp : SimInput) (rng : Rng) (trial : ℕ) : List CatOutcome :=
  inp.config.specs.map (trialOutcome inp rng trial)

/-- Categories won by self in one trial. -/
def selfCatsWon (os : List CatOutcome) : ℕ :=
  os.countP fun o => decide (o = .selfWin)

/-- Categories won by the opponent in one trial. -/
def oppCatsWon (os : List CatOutcome) : ℕ :=
  os.countP fun o => decide (o = .oppWin)

/-- Modelled from the spec: the trial's overall outcome — the side with
strictly more category wins takes the trial, equal counts is a tie. -/
def overallOutcome (os : List CatOutcome) : CatOutcome :=
  if selfCatsWon os > oppCatsWon os then .selfWin
  else if oppCatsWon os > selfCatsWon os then .oppWin
  else .tie

/-- Modelled from the spec: the outcome-histogram key of one trial. -/
def histKey (os : List CatOutcome) : ℕ × ℕ := (selfCatsWon os, oppCatsWon os)

/-- Modelled from the spec: a win/loss/tie tally. -/
structure Tally where
  self : ℕ
  opponent : ℕ
  tie : ℕ
deriving DecidableEq, Repr

/-- Tally a list of outcomes. -/
def tallyOf (l : List CatOutcome) : Tally :=
  ⟨l.countP fun o => decide (o = .selfWin),
   l.countP fun o => decide (o = .oppWin),
   l.countP fun o => decide (o = .tie)⟩

/-- The effective number of trials. -/
def trialCountN (inp : SimInput) : ℕ := inp.config.trialCount.toNat

/-- Modelled from the spec: one category's outcomes across all trials. -/
def catOutcomeList (inp : SimInput) (rng : Rng) (c : CategorySpec) :
    List CatOutcome :=
  (List.range (trialCountN inp)).map fun t => trialOutcome inp rng t c

/-- Modelled from the spec: one category's tally across all trials. -/
def catTally (inp : SimInput) (rng : Rng) (c : CategorySpec) : Tally :=
  tallyOf (catOutcomeList inp rng c)

/-- Modelled from the spec: the overall outcomes across all trials. -/
def overallList (inp : SimInput) (rng : Rng) : List CatOutcome :=
  (List.range (trialCountN inp)).map fun t =>
    overallOutcome (trialOutcomes inp rng t)

/-- Modelled from the spec: the overall win/loss/tie tally. -/
def overallTally (inp : SimInput) (rng : Rng) : Tally :=
  tallyOf (overallList inp rng)

/-- Modelled from the spec: the histogram key of every trial. -/
def histKeys (inp : SimInput) (rng : Rng) : List (ℕ × ℕ) :=
  (List.range (trialCountN inp)).map fun t => histKey (trialOutcomes inp rng t)

/-- The number of trials that produced a given histogram key. -/
def keyCount (l : List (ℕ × ℕ)) (k : ℕ × ℕ) : ℕ :=
  l.countP fun x => decide (x = k)

/-- Modelled from the spec: the outcome histogram as (key, count)
entries, one entry per distinct key. -/
def histEntries (inp : SimInput) (rng : Rng) : List ((ℕ × ℕ) × ℕ) :=
  (histKeys inp rng).dedup.map fun k => (k, keyCount (histKeys inp rng) k)

/-! ### ResultsSummarizer -/

/-- Modelled from the spec: the ordering used to rank histogram entries —
descending count, count ties broken by ascending `selfCatsWon` (the fixed
deterministic tie-break the spec names). -/
def outcomeLE (a b : (ℕ × ℕ) × ℕ) : Bool :=
  b.2 < a.2 || (a.2 == b.2 && a.1.1 ≤ b.1.1)

/-- Modelled from the spec: histogram entries sorted by descending count
(ascending `selfCatsWon` on count ties) and truncated to `k` entries. -/
def topEntries (inp : SimInput) (rng : Rng) : List ((ℕ × ℕ) × ℕ) :=
  ((histEntries inp rng).mergeSort outcomeLE).take inp.config.topOutcomeCount

/-- Modelled from the spec: the reported top outcomes, each entry's
probability being its count divided by the trial count. -/
def topOutcomes (inp : SimInput) (rng : Rng) : List ((ℕ × ℕ) × ℚ) :=
  (topEntries inp rng).map fun e => (e.1, (e.2 : ℚ) / (trialCountN inp : ℚ))

/-- Modelled from the spec: a category's win rate in percentage points,
`categoryTally.self / trialCount` scaled by 100. -/
def engineWinRate (inp : SimInput) (rng : Rng) (c : CategorySpec) : ℚ :=
  ((catTally inp rng c).self : ℚ) / (trialCountN inp : ℚ) * 100

/-- Modelled from the spec: a category's loss rate in percentage points. -/
def engineLossRate (inp : SimInput) (rng : Rng) (c : CategorySpec) : ℚ :=
  ((catTally inp rng c).opponent : ℚ) / (trialCountN inp : ℚ) * 100

/-- Modelled from the spec: the swing-category list — categories whose
win and loss rates differ by at most the closeness threshold. -/
def swingCategories (inp : SimInput) (rng : Rng) : List String :=
  (inp.config.specs.filter fun c =>
    |engineWinRate inp rng c - engineLossRate inp rng c| ≤
      inp.config.closenessThreshold).map (·.name)

/-- Modelled from the spec: expected categories won, the sum of the
per-category win rates (as fractions of the trial count). -/
def expectedCategoriesWon (inp : SimInput) (rng : Rng) : ℚ :=
  (inp.config.specs.map fun c =>
    ((catTally inp rng c).self : ℚ) / (trialCountN inp : ℚ)).sum

/-- Modelled from the spec: the mean of one category's adjusted values
across all trials for one team. -/
def projectedMean (inp : SimInput) (rng : Rng) (team : ℕ) (ti : TeamInput)
    (c : CategorySpec) : ℚ :=
  ((List.range (trialCountN inp)).map fun t =>
    adjustedValue inp.config.specs rng team t ti c).sum / (trialCountN inp : ℚ)

/-- Modelled from the spec: the deterministic projected score — a single
head-to-head comparison of each category's projected means. -/
def deterministicProjectedScore (inp : SimInput) (rng : Rng) : ℕ × ℕ :=
  let outcomes := inp.config.specs.map fun c =>
    compareCat c.direction
      (projectedMean inp rng 0 inp.teamSelf c)
      (projectedMean inp rng 1 inp.teamOpponent c)
  (selfCatsWon outcomes, oppCatsWon outcomes)

/-- Modelled from the spec: the aggregate simulation result. -/
structure MatchupResult where
  overall : Tally
  perCategory : List (String × Tally)
  histogram : List ((ℕ × ℕ) × ℕ)
  top : List ((ℕ × ℕ) × ℚ)
  swing : List String
  expectedCats : ℚ
  projectedScore : ℕ × ℕ

/-- Modelled from the spec: assemble the full result from the tallies. -/
def computeResult (inp : SimInput) (rng : Rng) : MatchupResult where
  overall := overallTally inp rng
  perCategory := inp.config.specs.map fun c => (c.name, catTally inp rng c)
  histogram := histEntries inp rng
  top := topOutcomes inp rng
  swing := swingCategories inp rng
  expectedCats := expectedCategoriesWon inp rng
  projectedScore := deterministicProjectedScore inp rng

/-! ### Validation -/

/-- Modelled from the spec: the error taxonomy of section 7 (the parts
the simulation core itself raises). -/
inductive SimError where
  | configurationError
  | validationError
deriving DecidableEq, Repr

/-- Modelled from the spec: every category referenced by a ratio row of
the spec table must name a declared counting category; a name that
resolves to nothing (or to another ratio) is an unknown category. -/
def specsWellFormed (specs : List CategorySpec) : Bool :=
  specs.all fun c =>
    match c.ratio with
    | none => true
    | some (n, d) =>
      (match findSpec specs n with
       | some cn => cn.ratio == none
       | none => false) &&
      (match findSpec specs d with
       | some cd => cd.ratio == none
       | none => false)

/-- Modelled from the spec: fail-fast validation — `trialCount ≤ 0` or
an unknown category in the spec table is a ConfigurationError, a negative
`gamesRemaining` on any player is a ValidationError, all raised before
any trial executes.  An empty player list is valid. -/
def validateInput (inp : SimInput) : Except SimError Unit :=
  if inp.config.trialCount ≤ 0 then .error .configurationError
  else if ¬ specsWellFormed inp.config.specs then .error .configurationError
  else if (inp.teamSelf.players ++ inp.teamOpponent.players).any
      (fun p => p.gamesRemaining < 0) then .error .validationError
  else .ok ()

/-- Modelled from the spec: the whole engine — validate, then run the
batch computation; a pure function of the input and the injected random
source. -/
def runSimulation (inp : SimInput) (rng : Rng) : Except SimError MatchupResult :=
  match validateInput inp with
  | .error e => .error e
  | .ok () => .ok (computeResult inp rng)

/-! ## Theorems -/

/-- C2: a category is flagged swing exactly when the absolute difference
between its win rate and its loss rate (both in percentage points of the
total trials) is at most the 15-point closeness threshold; the synthetic
500/500/0 tally is flagged swing and 900/100/0 is not. -/
theorem swing_flag_iff :
    (∀ you opp tie : ℕ, 0 < you + opp + tie →
      (categoryRow_isSwing you opp tie = true ↔
        |(you : ℚ) / ((you : ℚ) + (opp : ℚ) + (tie : ℚ)) * 100 -
          (opp : ℚ) / ((you : ℚ) + (opp : ℚ) + (tie : ℚ)) * 100| ≤ 15))
    ∧ categoryRow_isSwing 500 500 0 = true
    ∧ categoryRow_isSwing 900 100 0 = false := by
  refine ⟨fun you opp tie h => ?_, ?_, ?_⟩
  · have htot : (0 : ℚ) < (you : ℚ) + (opp : ℚ) + (tie : ℚ) := by
      have : (0 : ℚ) < ((you + opp + tie : ℕ) : ℚ) := by exact_mod_cast h
      push_cast at this
      linarith
    simp [categoryRow_isSwing, categoryRow_youPct, categoryRow_oppPct, htot]
  · norm_num [categoryRow_isSwing, categoryRow_youPct, categoryRow_oppPct]
  · norm_num [categoryRow_isSwing, categoryRow_youPct, categoryRow_oppPct]

theorem swing_flag_iff_witness :
    categoryRow_isSwing 500 499 1 = true ↔
      |(500 : ℚ) / ((500 : ℚ) + (499 : ℚ) + (1 : ℚ)) * 100 -
        (499 : ℚ) / ((500 : ℚ) + (499 : ℚ) + (1 : ℚ)) * 100| ≤ 15 :=
  swing_flag_iff.1 500 499 1 (by norm_num)

/-- C4: for a complete tally (`you + opp + tie = N`, `N > 0` trials) the
displayed per-category win rate is `you / N`, the denominator being the
total number of trials; at the tally 1/1/2 this gives 25%, not the 50%
that a non-tie denominator `you / (you + opp)` would give. -/
theorem category_winrate_total_denominator :
    (∀ you opp tie N : ℕ, you + opp + tie = N → 0 < N →
      categoryRow_youPct you opp tie = (you : ℚ) / (N : ℚ) * 100)
    ∧ categoryRow_youPct 1 1 2 = 25
    ∧ (1 : ℚ) / ((1 : ℚ) + 1) * 100 ≠ categoryRow_youPct 1 1 2 := by
  refine ⟨fun you opp tie N hsum hN => ?_, ?_, ?_⟩
  · subst hsum
    have htot : (0 : ℚ) < (you : ℚ) + (opp : ℚ) + (tie : ℚ) := by
      have : (0 : ℚ) < ((you + opp + tie : ℕ) : ℚ) := by exact_mod_cast hN
      push_cast at this
      linarith
    simp only [categoryRow_youPct, if_pos htot]
    push_cast
    ring
  · norm_num [categoryRow_youPct]
  · norm_num [categoryRow_youPct]

theorem category_winrate_total_denominator_witness :
    categoryRow_youPct 2 1 1 = (2 : ℚ) / (4 : ℚ) * 100 :=
  category_winrate_total_denominator.1 2 1 1 4 rfl (by norm_num)

/-- C9: the overall win-probability bar excludes ties from its
denominator — for `you + opponent > 0` it shows `100 * you / (you +
opponent)` and the two displayed percentages always sum to exactly 100 —
whereas a category row's two percentages (denominator `you + opponent +
tie`) sum to strictly less than 100 whenever `tie > 0`. -/
theorem winbar_excludes_ties :
    (∀ you opp : ℕ, 0 < you + opp →
      winBar_youPct you opp = (you : ℚ) / ((you : ℚ) + (opp : ℚ)) * 100 ∧
      winBar_youPct you opp + winBar_oppPct you opp = 100)
    ∧ (∀ you opp tie : ℕ, 0 < tie →
      categoryRow_youPct you opp tie + categoryRow_oppPct you opp tie < 100) := by
  constructor
  · intro you opp h
    have htot : (0 : ℚ) < (you : ℚ) + (opp : ℚ) := by
      have : (0 : ℚ) < ((you + opp : ℕ) : ℚ) := by exact_mod_cast h
      push_cast at this
      linarith
    refine ⟨by simp [winBar_youPct, htot], ?_⟩
    simp only [winBar_youPct, winBar_oppPct, if_pos htot]
    field_simp
    ring
  · intro you opp tie h
    have htie : (0 : ℚ) < (tie : ℚ) := by exact_mod_cast h
    have hy : (0 : ℚ) ≤ (you : ℚ) := by positivity
    have ho : (0 : ℚ) ≤ (opp : ℚ) := by positivity
    have htot : (0 : ℚ) < (you : ℚ) + (opp : ℚ) + (tie : ℚ) := by linarith
    simp only [categoryRow_youPct, categoryRow_oppPct, if_pos htot]
    rw [div_mul_eq_mul_div, div_mul_eq_mul_div, div_add_div_same,
      div_lt_iff₀ htot]
    nlinarith

theorem winbar_excludes_ties_witness :
    (winBar_youPct 3 1 = (3 : ℚ) / ((3 : ℚ) + (1 : ℚ)) * 100 ∧
      winBar_youPct 3 1 + winBar_oppPct 3 1 = 100) :=
  winbar_excludes_ties.1 3 1 (by norm_num)

/-- C10: the percentage computations are total on non-negative integer
tallies — whenever the denominator is zero (`you + opponent = 0` for the
bar, `you + opponent + tie = 0` for a category row) both displayed
percentages are exactly 50 instead of a division-by-zero NaN. -/
theorem zero_denominator_fifty :
    (∀ you opp : ℕ, you + opp = 0 →
      winBar_youPct you opp = 50 ∧ winBar_oppPct you opp = 50)
    ∧ (∀ you opp tie : ℕ, you + opp + tie = 0 →
      categoryRow_youPct you opp tie = 50 ∧
      categoryRow_oppPct you opp tie = 50) := by
  constructor
  · intro you opp h
    obtain ⟨hy, ho⟩ : you = 0 ∧ opp = 0 := by omega
    subst hy; subst ho
    norm_num [winBar_youPct, winBar_oppPct]
  · intro you opp tie h
    obtain ⟨hy, ho, ht⟩ : you = 0 ∧ opp = 0 ∧ tie = 0 := by omega
    subst hy; subst ho; subst ht
    norm_num [categoryRow_youPct, categoryRow_oppPct]

theorem zero_denominator_fifty_witness :
    winBar_youPct 0 0 = 50 ∧ winBar_oppPct 0 0 = 50 :=
  zero_denominator_fifty.1 0 0 rfl

/-! ### Engine-side theorems -/

/-- Each outcome is exactly one of win, loss, tie, so the three counters
partition any outcome list. -/
theorem tallyOf_partition (l : List CatOutcome) :
    (tallyOf l).self + (tallyOf l).opponent + (tallyOf l).tie = l.length := by
  induction l with
  | nil => rfl
  | cons a t ih =>
    simp only [tallyOf] at ih ⊢
    cases a <;> simp [List.countP_cons] <;> omega

/-- A tiny concrete engine input — two counting categories, two trials,
empty rosters — used to instantiate hypotheses of engine theorems. -/
def demoInput : SimInput where
  teamSelf := ⟨[], fun _ => 0⟩
  teamOpponent := ⟨[], fun _ => 0⟩
  config :=
    { trialCount := 2
      specs := [⟨"PTS", .maximize, 0, none⟩, ⟨"TO", .minimize, 0, none⟩] }

/-- C1: the tallies are complete partitions of the trials — the overall
win/loss/tie counters, every category's win/loss/tie counters, and the
outcome-histogram counts each sum to the trial count `N`. -/
theorem tallies_partition_trials (inp : SimInput) (rng : Rng) (N : ℕ)
    (hN : trialCountN inp = N) (_hpos : 0 < N) :
    ((overallTally inp rng).self + (overallTally inp rng).opponent +
        (overallTally inp rng).tie = N)
    ∧ (∀ c : CategorySpec,
        (catTally inp rng c).self + (catTally inp rng c).opponent +
          (catTally inp rng c).tie = N)
    ∧ ((histEntries inp rng).map (·.2)).sum = N := by
  refine ⟨?_, fun c => ?_, ?_⟩
  · rw [overallTally, tallyOf_partition, overallList, List.length_map,
      List.length_range, hN]
  · rw [catTally, tallyOf_partition, catOutcomeList, List.length_map,
      List.length_range, hN]
  · rw [histEntries, List.map_map]
    have hcomp : ((fun x => x.2) ∘ fun k => (k, keyCount (histKeys inp rng) k)) =
        fun k => keyCount (histKeys inp rng) k := rfl
    have hsum : ((histKeys inp rng).dedup.map
        fun k => keyCount (histKeys inp rng) k).sum = (histKeys inp rng).length :=
      List.sum_map_count_dedup_eq_length (histKeys inp rng)
    rw [hcomp, hsum, histKeys, List.length_map, List.length_range, hN]

theorem tallies_partition_trials_witness :
    ((overallTally demoInput rngZero).self +
        (overallTally demoInput rngZero).opponent +
        (overallTally demoInput rngZero).tie = 2)
    ∧ (∀ c : CategorySpec,
        (catTally demoInput rngZero c).self +
          (catTally demoInput rngZero c).opponent +
          (catTally demoInput rngZero c).tie = 2)
    ∧ ((histEntries demoInput rngZero).map (·.2)).sum = 2 :=
  tallies_partition_trials demoInput rngZero 2 rfl (by decide)

/-- C3: the random source is an explicit argument of the engine, which is
a pure function of (input, source): two runs on identical inputs with an
identical source produce identical output. -/
theorem simulation_deterministic (inp₁ inp₂ : SimInput) (rng₁ rng₂ : Rng)
    (hi : inp₁ = inp₂) (hr : rng₁ = rng₂) :
    runSimulation inp₁ rng₁ = runSimulation inp₂ rng₂ := by
  subst hi
  subst hr
  rfl

theorem simulation_deterministic_witness :
    runSimulation demoInput rngZero = runSimulation demoInput rngZero :=
  simulation_deterministic demoInput demoInput rngZero rngZero rfl rfl

/-- The turnover category: minimize direction, zero variance. -/
def turnoverSpec : CategorySpec := ⟨"TO", .minimize, 0, none⟩

/-- A matchup whose only category is turnovers: Team A's lone player
averages 1 turnover per game, Team B's averages 5, one game each, no
variance, no accrued totals. -/
def turnoverInput (N : ℕ) : SimInput where
  teamSelf := ⟨[⟨"A1", fun _ => 1, 1⟩], fun _ => 0⟩
  teamOpponent := ⟨[⟨"B1", fun _ => 5, 1⟩], fun _ => 0⟩
  config := { trialCount := (N : Int), specs := [turnoverSpec] }

/-- C5: category comparison follows the declared direction — strictly
higher wins a maximize category, strictly lower wins a minimize category,
equal values are a tie in either direction — and in the concrete
minimize-direction scenario (Team A turnover mean 1 vs Team B mean 5,
zero variance) Team A wins the turnover category in all `N` trials. -/
theorem direction_comparison :
    (∀ a b : ℚ, b < a → compareCat .maximize a b = .selfWin)
    ∧ (∀ a b : ℚ, a < b → compareCat .maximize a b = .oppWin)
    ∧ (∀ a b : ℚ, a < b → compareCat .minimize a b = .selfWin)
    ∧ (∀ a b : ℚ, b < a → compareCat .minimize a b = .oppWin)
    ∧ (∀ (d : Direction) (a : ℚ), compareCat d a a = .tie)
    ∧ (∀ N : ℕ, (catTally (turnoverInput N) rngZero turnoverSpec).self = N) := by
  refine ⟨?_, ?_, ?_, ?_, ?_, ?_⟩
  · intro a b h
    simp [compareCat, h, ne_of_gt h, not_lt_of_gt h]
  · intro a b h
    simp [compareCat, ne_of_lt h, not_lt_of_gt h]
  · intro a b h
    simp [compareCat, h, ne_of_lt h]
  · intro a b h
    simp [compareCat, ne_of_gt h, not_lt_of_gt h]
  · intro d a
    cases d <;> simp [compareCat]
  · intro N
    have hconst : ∀ t : ℕ,
        trialOutcome (turnoverInput N) rngZero t turnoverSpec =
          CatOutcome.selfWin := by
      intro t
      show compareCat .minimize
        (adjustedValue [turnoverSpec] rngZero 0 t
          ⟨[⟨"A1", fun _ => 1, 1⟩], fun _ => 0⟩ turnoverSpec)
        (adjustedValue [turnoverSpec] rngZero 1 t
          ⟨[⟨"B1", fun _ => 5, 1⟩], fun _ => 0⟩ turnoverSpec) = _
      norm_num [adjustedValue, adjustedCountingValue, simulatedValue,
        sampleGame, rngZero, turnoverSpec, compareCat]
    show (catOutcomeList (turnoverInput N) rngZero turnoverSpec).countP
        (fun o => decide (o = CatOutcome.selfWin)) = N
    rw [List.countP_eq_length.2 ?_]
    · rw [catOutcomeList, List.length_map, List.length_range, trialCountN]
      simp [turnoverInput]
    · intro a ha
      rw [catOutcomeList] at ha
      obtain ⟨t, _, rfl⟩ := List.mem_map.1 ha
      simp [hconst t]

theorem direction_comparison_witness :
    compareCat .maximize 3 2 = CatOutcome.selfWin :=
  direction_comparison.1 3 2 (by norm_num)

/-- The field-goal ratio row of a three-row spec table. -/
def fgRatioSpec : CategorySpec := ⟨"FG%", .maximize, 0, some ("FGM", "FGA")⟩

/-- A spec table with made/attempted counting categories and their
derived percentage. -/
def fgSpecs : List CategorySpec :=
  [⟨"FGM", .maximize, 0, none⟩, ⟨"FGA", .maximize, 0, none⟩, fgRatioSpec]

/-- A valid team input whose player projects 10 made field goals but
only 5 attempts per game (each counting category is sampled
independently, so nothing ties the two rates together). -/
def fgTeam : TeamInput where
  players := [⟨"P1", fun s => if s = "FGM" then 10 else if s = "FGA" then 5 else 0, 1⟩]
  currentTotals := fun _ => 0

/-- C6 counterexample: on the valid input `fgTeam` (all rates
non-negative, zero variance, no accrued totals) the adjusted FG% of a
trial is 10/5 = 2, which lies outside [0,1], refuting the claim that the
adjusted ratio always lies in [0,1]. -/
theorem ratio_out_of_range :
    adjustedValue fgSpecs rngZero 0 0 fgTeam fgRatioSpec = 2
    ∧ ¬ adjustedValue fgSpecs rngZero 0 0 fgTeam fgRatioSpec ≤ 1 := by
  have h1 : fgRatioSpec.ratio = some ("FGM", "FGA") := rfl
  have h2 : findSpec fgSpecs "FGM" =
      some ⟨"FGM", .maximize, 0, none⟩ := by rfl
  have h3 : findSpec fgSpecs "FGA" =
      some ⟨"FGA", .maximize, 0, none⟩ := by rfl
  have h : adjustedValue fgSpecs rngZero 0 0 fgTeam fgRatioSpec = 2 := by
    simp only [adjustedValue, h1, h2, h3]
    have hne : ("FGA" : String) ≠ "FGM" := by decide
    norm_num [adjustedCountingValue, simulatedValue, sampleGame, rngZero,
      fgTeam, ratioVal, hne]
  exact ⟨h, by rw [h]; norm_num⟩

/-- C6 (amended): after the adjuster, a ratio category equals exactly
(simulated + current numerator) / (simulated + current denominator) —
recomputed from the adjusted counting totals, never a sum or average of
ratio values — equals 0 whenever the adjusted denominator is 0, is
non-negative whenever the adjusted numerator and denominator are, and
lies in [0,1] whenever additionally the adjusted numerator does not
exceed the adjusted denominator (independent per-category sampling does
not guarantee that premise, hence the amendment). -/
theorem ratio_recompute_exact (specs : List CategorySpec) (rng : Rng)
    (team t : ℕ) (ti : TeamInput) (c cn cd : CategorySpec) (n d : String)
    (hc : c.ratio = some (n, d))
    (hn : findSpec specs n = some cn) (hd : findSpec specs d = some cd) :
    (adjustedValue specs rng team t ti c =
      ratioVal
        (simulatedValue rng team t ti.players cn + ti.currentTotals cn.name)
        (simulatedValue rng team t ti.players cd + ti.currentTotals cd.name))
    ∧ (adjustedCountingValue rng team t ti cd = 0 →
        adjustedValue specs rng team t ti c = 0)
    ∧ (0 ≤ adjustedCountingValue rng team t ti cn →
        0 ≤ adjustedCountingValue rng team t ti cd →
        0 ≤ adjustedValue specs rng team t ti c)
    ∧ (0 ≤ adjustedCountingValue rng team t ti cn →
        adjustedCountingValue rng team t ti cn ≤
          adjustedCountingValue rng team t ti cd →
        adjustedValue specs rng team t ti c ≤ 1) := by
  have hval : adjustedValue specs rng team t ti c =
      ratioVal (adjustedCountingValue rng team t ti cn)
        (adjustedCountingValue rng team t ti cd) := by
    simp only [adjustedValue, hc, hn, hd]
  refine ⟨hval, fun h0 => ?_, fun hn0 hd0 => ?_, fun hn0 hnd => ?_⟩
  · rw [hval, h0, ratioVal, if_pos rfl]
  · rw [hval, ratioVal]
    split
    · exact le_refl 0
    · exact div_nonneg hn0 hd0
  · rw [hval, ratioVal]
    split
    · exact zero_le_one
    · rename_i hne
      have hdpos : 0 < adjustedCountingValue rng team t ti cd :=
        lt_of_le_of_ne (hn0.trans hnd) (Ne.symm hne)
      exact (div_le_one hdpos).2 hnd

theorem ratio_recompute_exact_witness :
    adjustedValue fgSpecs rngZero 0 0 fgTeam fgRatioSpec =
      ratioVal
        (simulatedValue rngZero 0 0 fgTeam.players
            ⟨"FGM", .maximize, 0, none⟩ + fgTeam.currentTotals "FGM")
        (simulatedValue rngZero 0 0 fgTeam.players
            ⟨"FGA", .maximize, 0, none⟩ + fgTeam.currentTotals "FGA") :=
  (ratio_recompute_exact fgSpecs rngZero 0 0 fgTeam fgRatioSpec
    ⟨"FGM", .maximize, 0, none⟩ ⟨"FGA", .maximize, 0, none⟩ "FGM" "FGA"
    rfl (by rfl) (by rfl)).1

/-- An input rejected before simulation: its trial count is 0. -/
def zeroTrialInput : SimInput where
  teamSelf := ⟨[], fun _ => 0⟩
  teamOpponent := ⟨[], fun _ => 0⟩
  config := { trialCount := 0, specs := [] }

/-- C7: `trialCount ≤ 0` or an unknown category referenced by the spec
table yields ConfigurationError and a negative `gamesRemaining` yields
ValidationError, in each case as the engine's whole answer (so no trial
ever executes); an empty player list is not an error — its simulated
totals are all zero and, under a valid configuration, the run succeeds. -/
theorem failfast_errors :
    (∀ (inp : SimInput) (rng : Rng), inp.config.trialCount ≤ 0 →
      runSimulation inp rng = .error .configurationError)
    ∧ (∀ (inp : SimInput) (rng : Rng),
      specsWellFormed inp.config.specs = false →
      runSimulation inp rng = .error .configurationError)
    ∧ (∀ (inp : SimInput) (rng : Rng), 0 < inp.config.trialCount →
      specsWellFormed inp.config.specs = true →
      (∃ p ∈ inp.teamSelf.players ++ inp.teamOpponent.players,
        p.gamesRemaining < 0) →
      runSimulation inp rng = .error .validationError)
    ∧ (∀ (rng : Rng) (team t : ℕ) (c : CategorySpec),
      simulatedValue rng team t [] c = 0)
    ∧ (∀ (inp : SimInput) (rng : Rng), 0 < inp.config.trialCount →
      specsWellFormed inp.config.specs = true →
      inp.teamSelf.players = [] → inp.teamOpponent.players = [] →
      runSimulation inp rng = .ok (computeResult inp rng)) := by
  refine ⟨?_, ?_, ?_, ?_, ?_⟩
  · intro inp rng h
    simp [runSimulation, validateInput, h]
  · intro inp rng h
    rcases le_or_lt inp.config.trialCount 0 with h1 | h1
    · simp [runSimulation, validateInput, h1]
    · simp [runSimulation, validateInput, not_le.2 h1, h]
  · intro inp rng h1 h2 h3
    have hcond : (∃ x ∈ inp.teamSelf.players, x.gamesRemaining < 0) ∨
        ∃ x ∈ inp.teamOpponent.players, x.gamesRemaining < 0 := by
      obtain ⟨p, hp, hneg⟩ := h3
      rcases List.mem_append.1 hp with h | h
      · exact .inl ⟨p, h, hneg⟩
      · exact .inr ⟨p, h, hneg⟩
    simp [runSimulation, validateInput, not_le.2 h1, h2, hcond]
  · intro rng team t c
    simp [simulatedValue]
  · intro inp rng h1 h2 hs ho
    simp [runSimulation, validateInput, not_le.2 h1, h2, hs, ho]

theorem failfast_errors_witness :
    runSimulation zeroTrialInput rngZero = .error .configurationError :=
  failfast_errors.1 zeroTrialInput rngZero (by norm_num [zeroTrialInput])

/-- The ranking order is total. -/
theorem outcomeLE_total (a b : (ℕ × ℕ) × ℕ) : outcomeLE a b || outcomeLE b a := by
  simp only [outcomeLE, Bool.or_eq_true, Bool.and_eq_true, decide_eq_true_eq,
    beq_iff_eq]
  omega

/-- The ranking order is transitive. -/
theorem outcomeLE_trans (a b c : (ℕ × ℕ) × ℕ) :
    outcomeLE a b → outcomeLE b c → outcomeLE a c := by
  simp only [outcomeLE, Bool.or_eq_true, Bool.and_eq_true, decide_eq_true_eq,
    beq_iff_eq]
  omega

/-- C8: the reported top-outcomes list is the outcome histogram sorted in
descending order of count — count ties broken deterministically by
ascending `selfCatsWon` — truncated to `topOutcomeCount` entries, and
every reported probability is that entry's count divided by the trial
count. -/
theorem top_outcomes_ranked (inp : SimInput) (rng : Rng)
    (_h : 0 < trialCountN inp) :
    (topEntries inp rng).Pairwise (fun a b => outcomeLE a b = true)
    ∧ (topEntries inp rng).length =
        min inp.config.topOutcomeCount (histEntries inp rng).length
    ∧ (∀ e ∈ topOutcomes inp rng,
        e.2 = (keyCount (histKeys inp rng) e.1 : ℚ) / (trialCountN inp : ℚ)) := by
  refine ⟨?_, ?_, ?_⟩
  · exact List.Pairwise.sublist (List.take_sublist _ _)
      (List.sorted_mergeSort outcomeLE_trans outcomeLE_total (histEntries inp rng))
  · simp [topEntries, List.length_take, List.length_mergeSort]
  · intro e he
    obtain ⟨en, hen, rfl⟩ := List.mem_map.1 he
    have h1 : en ∈ (histEntries inp rng).mergeSort outcomeLE :=
      (List.take_sublist _ _).subset hen
    have h2 : en ∈ histEntries inp rng := List.mem_mergeSort.1 h1
    obtain ⟨k, _, rfl⟩ := List.mem_map.1 h2
    rfl

theorem top_outcomes_ranked_witness :
    (topEntries demoInput rngZero).length =
      min demoInput.config.topOutcomeCount (histEntries demoInput rngZero).length :=
  (top_outcomes_ranked demoInput rngZero (by decide)).2.1

end FantasySim
